import Mathlib

/-!
Shallow embedding of the watch-folder subsystem of
`src/crates/workspace/src/watch_folder.rs`.

Modelling conventions:
* Filesystem paths (absolute and project-relative alike) are lists of
  components (`List String`), matching the component views used by the
  source (`Path::components`, `RelPath::components`).
* The external collaborators (document container / panes, git store,
  filesystem, settings) are oracle functions bundled in `Env`; the source
  only ever consults them through boolean queries, which is what the
  oracles model.
* All mutations of a `GroupWatchState` happen inside serialized update
  closures in the source; each such closure becomes one pure state
  transformer here.  Asynchronous completions (open success / open
  failure, a start continuation, a debounce-timer firing) are modelled as
  their own operations, because they run as separate serialized updates.
* Calls the subsystem makes into the external collaborators (open a
  document, close a document, spawn/release a watcher, request a
  debounced refresh, report a background error) are reified as `Effect`
  values returned next to the new state.
-/

/-- A path, as its list of components. -/
abbrev PathC := List String

/-- A project-relative path (the `ProjectPath.path` component view).
The `worktree_id` field of the source's `ProjectPath` is not modelled:
all paths handled by one group belong to the group's single worktree
(the source discards paths of other worktrees before they reach any of
the state operations modelled here). -/
abbrev ProjPath := List String

/-- Association-list lookup (model of `HashMap::get`). -/
def lookupA {α β : Type} [DecidableEq α] (k : α) : List (α × β) → Option β
  | [] => none
  | (k', v) :: rest => if k' = k then some v else lookupA k rest

/-- Association-list removal of a key (model of `HashMap::remove`). -/
def eraseA {α β : Type} [DecidableEq α] (k : α) : List (α × β) → List (α × β)
  | [] => []
  | kv :: rest => if kv.1 = k then eraseA k rest else kv :: eraseA k rest

/-- Association-list insertion (model of `HashMap::insert`). -/
def insertA {α β : Type} [DecidableEq α] (k : α) (v : β) (l : List (α × β)) : List (α × β) :=
  (k, v) :: eraseA k l

/-- Set-like insertion into a list (model of `HashSet::insert`). -/
def insertSet (p : ProjPath) (l : List ProjPath) : List ProjPath :=
  if p ∈ l then l else p :: l

/-- Set-like removal from a list (model of `HashSet::remove`). -/
def removePP (p : ProjPath) : List ProjPath → List ProjPath
  | [] => []
  | q :: rest => if q = p then removePP p rest else q :: removePP p rest

/-- Component-wise path-prefix test (model of `Path::starts_with` and
`RelPath::starts_with`). -/
def isPrefixOfB : List String → List String → Bool
  | [], _ => true
  | _ :: _, [] => false
  | a :: as, b :: bs => decide (a = b) && isPrefixOfB as bs

/-- Model of `abs_path.strip_prefix(root).unwrap_or(abs_path)` from
`is_hidden_path` / `is_ignored_path`. -/
def stripPrefixOr (root p : PathC) : PathC :=
  if isPrefixOfB root p then p.drop root.length else p

/-- ASCII lowercasing of a string (model of `str::to_ascii_lowercase`;
core's `Char.toLower` lowercases exactly the ASCII uppercase letters). -/
def asciiLower (s : String) : String :=
  String.mk (s.toList.map Char.toLower)

/-- A component is hidden when it starts with a dot
(`name.to_string_lossy().starts_with('.')` / `component.starts_with('.')`). -/
def startsWithDot (s : String) : Bool :=
  match s.toList with
  | [] => false
  | c :: _ => decide (c = '.')

/-- Substring test on character lists (model of `str::contains`). -/
def containsSub (needle hay : List Char) : Bool :=
  hay.tails.any (fun t => needle.isPrefixOf t)

/-- Model of `is_hidden_path` (watch_folder.rs:922): some component of the path,
relative to the group root when it is a prefix, starts with `.`. -/
def is_hidden_path (root p : PathC) : Bool :=
  (stripPrefixOr root p).any startsWithDot

/-- Model of `is_hidden_project_path` (watch_folder.rs:930). -/
def is_hidden_project_path (p : ProjPath) : Bool :=
  p.any startsWithDot

/-- Model of `watch_ignored_names` (watch_folder.rs:937): the configured ignore
names, ASCII-lowercased. -/
def watch_ignored_names (raw : List String) : List String :=
  raw.map asciiLower

/-- Model of `is_ignored_path` (watch_folder.rs:945). -/
def is_ignored_path (root p : PathC) (ignored : List String) : Bool :=
  (stripPrefixOr root p).any (fun c => ignored.contains (asciiLower c))

/-- Model of `is_ignored_project_path` (watch_folder.rs:955). -/
def is_ignored_project_path (p : ProjPath) (ignored : List String) : Bool :=
  p.any (fun c => ignored.contains (asciiLower c))

/-- The binary-artifact extension denylist of `is_binary_artifact_name`
(watch_folder.rs:976). -/
def binaryExtensions : List String :=
  ["o", "obj", "a", "so", "dylib", "dll", "rlib", "rmeta", "air", "metallib",
   "class", "jar", "war", "exe", "pdb", "wasm", "bin", "png", "jpg", "jpeg",
   "gif", "webp", "ico", "pdf", "zip", "gz", "xz", "bz2", "7z", "tar"]

/-- The characters after the last `.` of a character list, or `none`
when it holds no dot. -/
def afterLastDot : List Char → Option (List Char)
  | [] => none
  | c :: cs =>
    match afterLastDot cs with
    | some e => some e
    | none => if c = '.' then some cs else none

/-- Model of `name.rsplit_once('.')`: the part after the last dot, or `none` when
the name holds no dot at all. -/
def extensionAfterLastDot (name : String) : Option String :=
  (afterLastDot name.toList).map (fun e => String.mk e)

/-- Model of `is_binary_artifact_name` (watch_folder.rs:976). -/
def is_binary_artifact_name (name : String) : Bool :=
  match extensionAfterLastDot name with
  | none => false
  | some ext => binaryExtensions.contains ext

/-- Model of `is_binary_artifact_abs_path` (watch_folder.rs:962): checks the file
name, i.e. the last component. -/
def is_binary_artifact_abs_path (p : PathC) : Bool :=
  match p.getLast? with
  | none => false
  | some name => is_binary_artifact_name name

/-- Model of `is_binary_artifact_project_path` (watch_folder.rs:968). -/
def is_binary_artifact_project_path (p : ProjPath) : Bool :=
  match p.getLast? with
  | none => false
  | some name => is_binary_artifact_name name

/-- Model of `is_binary_open_error` (watch_folder.rs:1014): an `anyhow::Error` is
modelled as its chain of cause messages; the test asks whether some cause
message contains the fixed binary-content text. -/
def is_binary_open_error (chain : List String) : Bool :=
  chain.any (fun c => containsSub ("Binary files are not supported").toList c.toList)

/-- Model of `project_path_from_abs` (watch_folder.rs:906): strip the group root;
the caller has already checked `path.starts_with(root)`.  The
`RelPath::new` validation cannot fail on component lists, so the function
is `some` exactly on paths below the root. -/
def project_path_from_abs (root p : PathC) : Option ProjPath :=
  if isPrefixOfB root p then some (p.drop root.length) else none

/-- Model of `fs::PathEventKind`. -/
inductive PathEventKind : Type
  | Created
  | Changed
  | Removed
deriving DecidableEq

/-- One entry of a filesystem-watcher batch: a path and an optional
event kind (`kind: Option<PathEventKind>`). -/
structure PathEvent : Type where
  path : PathC
  kind : Option PathEventKind
deriving DecidableEq

/-- Model of `WatchedItem` (watch_folder.rs:160). -/
structure WatchedItem : Type where
  item_id : Nat
  close_when_clean : Bool
  was_dirty : Bool
deriving DecidableEq

/-- The mutable bookkeeping of `GroupWatchState` (watch_folder.rs:143).
The fields that are opaque resource handles (`worktree`, `watcher`,
`watch_task`, `git_subscription`) or display-only (`path_style`,
`group_id`, `worktree_id`) are not part of the state the claims are
about; the watcher's lifecycle is tracked through `Effect`s instead. -/
structure GroupState : Type where
  root_path : PathC
  root_rel_path : ProjPath
  paused : Bool
  refresh_pending : Bool
  watched_items : List (ProjPath × WatchedItem)
  watched_item_ids : List (Nat × ProjPath)
  pending_paths : List ProjPath
deriving DecidableEq

/-- The external collaborators, as oracles:
* `isOpenInGroup` — `item_for_project_path_in_group(..).is_some()`
  (watch_folder.rs:869): a document for the path is open and attributed
  to the group.
* `shouldCWC` — `should_close_when_clean` (watch_folder.rs:765): the path
  resolves into a git repository.
* `isDirtyNow` — `is_project_path_dirty` (watch_folder.rs:168): the git
  store currently reports uncommitted changes for the path.
* `isFile` — `fs.is_file` (watch_folder.rs:314).
* `hasPane` — `panes_by_item.get(&item_id).is_some()` together with the
  pane upgrade in `close_watched_item` (watch_folder.rs:845).
* `ignored` — the (already lowercased) result of `watch_ignored_names`. -/
structure Env : Type where
  isOpenInGroup : ProjPath → Bool
  shouldCWC : ProjPath → Bool
  isDirtyNow : ProjPath → Bool
  isFile : PathC → Bool
  hasPane : Nat → Bool
  ignored : List String

/-- The side effects the subsystem issues to its collaborators. -/
inductive Effect : Type
  | openReq (p : ProjPath) (close_when_clean : Bool) (opened_from_fs : Bool)
  | closeReq (item_id : Nat)
  | requestRefresh
  | bgError (chain : List String)
  | watcherSubscribed
  | watcherReleased
  | clearPaneMetadata (group_id : Nat)
  | runRefresh (group_id : Nat)
deriving DecidableEq

/-- One iteration of the candidate loop of `handle_watch_fs_paths`
(watch_folder.rs:547): the chain of filters applied to one incoming
absolute path, against the pending-set snapshot cloned before the loop.
Yields the project path to open together with its `close_when_clean`. -/
def handlePassEntry (env : Env) (st : GroupState) (snapshot : List ProjPath)
    (path : PathC) : Option (ProjPath × Bool) :=
  if ¬ (isPrefixOfB st.root_path path = true) then none
  else if is_ignored_path st.root_path path env.ignored
       || is_binary_artifact_abs_path path then none
  else match project_path_from_abs st.root_path path with
    | none => none
    | some pp =>
      if is_hidden_project_path pp
         || is_ignored_project_path pp env.ignored
         || is_binary_artifact_project_path pp then none
      else if env.isOpenInGroup pp then none
      else if pp ∈ snapshot then none
      else some (pp, env.shouldCWC pp)

/-- Model of `handle_watch_fs_paths` (watch_folder.rs:519), for a live group (the
source returns early when the group id is absent from `watch_groups`).
Faithful points: `has_paths` is computed from the incoming list before
any filtering; the pending-set snapshot is cloned before the loop, so
every entry of the batch is filtered against the same snapshot; new
pending paths are inserted afterwards; one open request is issued per
surviving loop entry; the debounced refresh is requested whenever the
incoming list is non-empty. -/
def handle_watch_fs_paths (env : Env) (st : GroupState) (paths : List PathC) :
    GroupState × List Effect :=
  if st.paused then (st, [])
  else
    let to_open := paths.filterMap (handlePassEntry env st st.pending_paths)
    let st' := { st with
      pending_paths := to_open.foldl (fun acc x => insertSet x.1 acc) st.pending_paths }
    let effects := to_open.map (fun x => Effect.openReq x.1 x.2 true)
    (st', if paths.isEmpty then effects else effects ++ [Effect.requestRefresh])

/-- The filter applied by the background dispatcher task
(watch_folder.rs:304): keep events of kind `Created`, `Changed` or
unknown, drop `Removed`, drop hidden paths, keep only plain files. -/
def fsEventCandidate (env : Env) (root : PathC) (e : PathEvent) : Option PathC :=
  match e.kind with
  | some PathEventKind.Removed => none
  | _ =>
    if is_hidden_path root e.path then none
    else if env.isFile e.path then some e.path else none

/-- All candidate paths of one batch. -/
def batchCandidates (env : Env) (root : PathC) (batch : List PathEvent) : List PathC :=
  batch.filterMap (fsEventCandidate env root)

/-- One turn of the dispatcher loop (watch_folder.rs:304): compute the
candidate paths of a batch and, when some survive, forward them to
`handle_watch_fs_paths` (the source `continue`s on an empty candidate
list without updating the workspace). -/
def dispatchBatch (env : Env) (st : GroupState) (batch : List PathEvent) :
    GroupState × List Effect :=
  let c := batchCandidates env st.root_path batch
  if c.isEmpty then (st, []) else handle_watch_fs_paths env st c

/-- Model of `collect_watch_dirty_paths_for_group` (watch_folder.rs:725).
`gitStatus` is the list of project paths of the group's worktree that the
git store reports with `status.has_changes()` (the repository iteration,
the `has_changes` test and the worktree-id comparison are the oracle's
side); the group keeps those under its `root_rel_path` that survive the
hidden/ignored/binary filters.  The result is deduplicated because the
source accumulates into a `HashSet`. -/
def collect_watch_dirty_paths (env : Env) (st : GroupState) (gitStatus : List ProjPath) :
    List ProjPath :=
  (gitStatus.filter (fun pp =>
    isPrefixOfB st.root_rel_path pp
    && !(is_hidden_project_path pp)
    && !(is_ignored_project_path pp env.ignored)
    && !(is_binary_artifact_project_path pp))).dedup

/-- One iteration of the dirty-path open loop of
`refresh_watch_git_status_for_group` (watch_folder.rs:626): skip paths
already open in the group and paths in the pending-set snapshot. -/
def openPhaseEntry (env : Env) (snapshot : List ProjPath) (pp : ProjPath) :
    Option (ProjPath × Bool) :=
  if env.isOpenInGroup pp then none
  else if pp ∈ snapshot then none
  else some (pp, env.shouldCWC pp)

/-- The open half of the refresh (watch_folder.rs:610..657): collect the
dirty paths to open, add them to `pending_paths`, and issue one open
request each (with `opened_from_fs = false`). -/
def refresh_open_phase (env : Env) (dirty : List ProjPath) (st : GroupState) :
    GroupState × List Effect :=
  let to_open := dirty.filterMap (openPhaseEntry env st.pending_paths)
  ({ st with
      pending_paths := to_open.foldl (fun acc x => insertSet x.1 acc) st.pending_paths },
   to_open.map (fun x => Effect.openReq x.1 x.2 false))

/-- The `enable_close` pass of the refresh (watch_folder.rs:659..674):
every tracked item not yet flagged `close_when_clean` whose path now
resolves into a repository gets `close_when_clean := true` and, in the
same assignment, `was_dirty := true`. -/
def enableCloseEntry (env : Env) (pp : ProjPath) (it : WatchedItem) : WatchedItem :=
  if !it.close_when_clean && env.shouldCWC pp
  then { it with close_when_clean := true, was_dirty := true }
  else it

/-- The map form of the `enable_close` pass: every entry's value is
rewritten by `enableCloseEntry` at its own key. -/
def enableClosePhase (env : Env) (items : List (ProjPath × WatchedItem)) :
    List (ProjPath × WatchedItem) :=
  items.map (fun kv => (kv.1, enableCloseEntry env kv.1 kv.2))

/-- The marking half of the close scan (watch_folder.rs:678): every
tracked item whose path is in the dirty set gets `was_dirty := true`. -/
def markDirtyEntry (dirty : List ProjPath) (pp : ProjPath) (it : WatchedItem) : WatchedItem :=
  if pp ∈ dirty then { it with was_dirty := true } else it

/-- The map form of the marking pass: every entry's value is rewritten by
`markDirtyEntry` at its own key. -/
def markDirtyPhase (dirty : List ProjPath) (items : List (ProjPath × WatchedItem)) :
    List (ProjPath × WatchedItem) :=
  items.map (fun kv => (kv.1, markDirtyEntry dirty kv.1 kv.2))

/-- The collecting half of the close scan (watch_folder.rs:678): items
whose path is absent from the dirty set and whose flags are
`close_when_clean && was_dirty` are scheduled for closing.  The source
does both halves in one `iter_mut` pass; the two are equal because the
marking only rewrites entries whose path is in the dirty set, which the
collection skips. -/
def toCloseIds (dirty : List ProjPath) (items : List (ProjPath × WatchedItem)) : List Nat :=
  items.filterMap (fun kv =>
    if kv.1 ∈ dirty then none
    else if kv.2.close_when_clean && kv.2.was_dirty then some kv.2.item_id
    else none)

/-- Model of `forget_watched_item` (watch_folder.rs:497), restricted to one group
(the source loops the same removal over every group's state). -/
def forget_watched_item (id : Nat) (st : GroupState) : GroupState :=
  match lookupA id st.watched_item_ids with
  | none => st
  | some pp =>
    { st with
      watched_item_ids := eraseA id st.watched_item_ids,
      watched_items := eraseA pp st.watched_items,
      pending_paths := removePP pp st.pending_paths }

/-- Model of `promote_watched_item` (watch_folder.rs:477): on the group state the
removal is the same as `forget_watched_item`; the additional work
(clearing per-pane metadata, notifying) lives outside the group state. -/
def promote_watched_item (id : Nat) (st : GroupState) : GroupState :=
  forget_watched_item id st

/-- Model of `close_watched_item` (watch_folder.rs:839): when no pane holds the
item the function returns without touching anything; otherwise it forgets
the item and asks the pane to close it (`SaveIntent::Close`). -/
def close_watched_item (env : Env) (id : Nat) (st : GroupState) :
    GroupState × List Effect :=
  if env.hasPane id then (forget_watched_item id st, [Effect.closeReq id])
  else (st, [])

/-- The state part of the closing loop (watch_folder.rs:688): fold
`close_watched_item` over the collected ids. -/
def close_items (env : Env) (ids : List Nat) (st : GroupState) : GroupState :=
  ids.foldl (fun s id => (close_watched_item env id s).1) st

/-- The effect part of the closing loop: `close_watched_item` emits one
close request per id that has a pane, independent of the evolving state,
so the emitted list is the filtered map. -/
def close_effects (env : Env) (ids : List Nat) : List Effect :=
  (ids.filter env.hasPane).map Effect.closeReq

/-- Model of `refresh_watch_git_status_for_group` (watch_folder.rs:604), for a
live group: early return when paused; snapshot `pending_paths`; collect
the filtered dirty set; open loop; pending insertion; open requests; the
`enable_close` pass; the close scan; the closing loop. -/
def refresh_watch_git_status (env : Env) (gitStatus : List ProjPath) (st : GroupState) :
    GroupState × List Effect :=
  if st.paused then (st, [])
  else
    let dirty := collect_watch_dirty_paths env st gitStatus
    let opened := refresh_open_phase env dirty st
    let items1 := enableClosePhase env opened.1.watched_items
    let ids := toCloseIds dirty items1
    let st2 := { opened.1 with watched_items := markDirtyPhase dirty items1 }
    (close_items env ids st2, opened.2 ++ close_effects env ids)

/-- The success continuation of `open_watched_project_path`
(watch_folder.rs:812..833): compute the initial `was_dirty` (only when
`close_when_clean`: opened from a raw filesystem event, or currently
dirty), drop the path from `pending_paths`, and insert the item and its
reverse mapping. -/
def open_complete_ok (env : Env) (pp : ProjPath) (close_when_clean opened_from_fs : Bool)
    (item_id : Nat) (st : GroupState) : GroupState :=
  let was_dirty := if close_when_clean then opened_from_fs || env.isDirtyNow pp else false
  { st with
    pending_paths := removePP pp st.pending_paths,
    watched_item_ids := insertA item_id pp st.watched_item_ids,
    watched_items := insertA pp (WatchedItem.mk item_id close_when_clean was_dirty)
      st.watched_items }

/-- The failure continuation of `open_watched_project_path`
(watch_folder.rs:798..810): drop the path from `pending_paths`; swallow
the error when `is_binary_open_error`, otherwise surface it as a
background error. -/
def open_complete_err (pp : ProjPath) (chain : List String) (st : GroupState) :
    GroupState × List Effect :=
  ({ st with pending_paths := removePP pp st.pending_paths },
   if is_binary_open_error chain then [] else [Effect.bgError chain])

/-- Model of `set_watch_group_paused` (watch_folder.rs:430), for a live group:
flip the flag; unpausing immediately runs a refresh. -/
def set_watch_group_paused (env : Env) (gitStatus : List ProjPath) (paused : Bool)
    (st : GroupState) : GroupState × List Effect :=
  let st' := { st with paused := paused }
  if !paused then refresh_watch_git_status env gitStatus st' else (st', [])

/-- The serialized state operations on one group's bookkeeping.  Stopping
a group is not listed because it removes the whole `GroupWatchState`
(see the workspace-level `stop_watching_group` below); there is no group
state left to evaluate an invariant on. -/
inductive WatchOp : Type
  | handleFs (paths : List PathC)
  | refreshGit (gitStatus : List ProjPath)
  | openOk (pp : ProjPath) (close_when_clean opened_from_fs : Bool) (item_id : Nat)
  | openErr (pp : ProjPath) (chain : List String)
  | promote (item_id : Nat)
  | forget (item_id : Nat)
  | setPaused (gitStatus : List ProjPath) (paused : Bool)

/-- Run one operation on one group's state. -/
def applyOp (env : Env) (op : WatchOp) (st : GroupState) : GroupState × List Effect :=
  match op with
  | WatchOp.handleFs paths => handle_watch_fs_paths env st paths
  | WatchOp.refreshGit gs => refresh_watch_git_status env gs st
  | WatchOp.openOk pp cwc fs id => (open_complete_ok env pp cwc fs id st, [])
  | WatchOp.openErr pp chain => open_complete_err pp chain st
  | WatchOp.promote id => (promote_watched_item id st, [])
  | WatchOp.forget id => (forget_watched_item id st, [])
  | WatchOp.setPaused gs b => set_watch_group_paused env gs b st

/-- The workspace-level store: `watch_groups`, `watch_request_ids` and
the `next_watch_request_id` counter (a `u64`, hence the `% 2 ^ 64`). -/
structure WorkspaceW : Type where
  watch_groups : List (Nat × GroupState)
  watch_request_ids : List (Nat × Nat)
  next_watch_request_id : Nat
deriving DecidableEq

/-- Model of `stop_watching_group` (watch_folder.rs:386): remove the group's state
and its stored request id, and (in a deferred update) clear the per-pane
watch metadata of the group.  Dropping the state releases the watcher and
cancels the dispatcher task; no document is closed. -/
def stop_watching_group (g : Nat) (ws : WorkspaceW) : WorkspaceW × List Effect :=
  ({ ws with
      watch_groups := eraseA g ws.watch_groups,
      watch_request_ids := eraseA g ws.watch_request_ids },
   [Effect.clearPaneMetadata g])

/-- Model of `stop_watching_folder` (watch_folder.rs:402): early return when no
group is watched; otherwise clear both maps and clear every group's
per-pane watch configuration and metadata. -/
def stop_watching_folder (ws : WorkspaceW) : WorkspaceW × List Effect :=
  if ws.watch_groups.isEmpty then (ws, [])
  else
    ({ ws with watch_groups := [], watch_request_ids := [] },
     ws.watch_groups.map (fun kv => Effect.clearPaneMetadata kv.1))

/-- The synchronous head of `start_watch_folder_for_group`
(watch_folder.rs:274..278): tear down existing state, bump the wrapping
`u64` counter, and store the new value as the group's current request
id.  Returns the request id the spawned continuation captures. -/
def start_begin (g : Nat) (ws : WorkspaceW) : WorkspaceW × Nat :=
  let ws1 := (stop_watching_group g ws).1
  let rid := (ws1.next_watch_request_id + 1) % 2 ^ 64
  ({ ws1 with
      next_watch_request_id := rid,
      watch_request_ids := insertA g rid ws1.watch_request_ids },
   rid)

/-- The asynchronous continuation of `start_watch_folder_for_group`
(watch_folder.rs:333..380): after resolving the worktree and building the
watcher, check the stored request id; on mismatch return without touching
any state (the locally built watcher is dropped, releasing its
subscription); on match subscribe to the git store and install the built
`GroupWatchState`. -/
def start_complete (g rid : Nat) (newState : GroupState) (ws : WorkspaceW) :
    WorkspaceW × List Effect :=
  if lookupA g ws.watch_request_ids = some rid then
    ({ ws with watch_groups := insertA g newState ws.watch_groups },
     [Effect.watcherSubscribed])
  else (ws, [Effect.watcherReleased])

/-- How the external document container reacts to the emitted effects:
only a close request removes an open document. -/
def applyEffect (docs : List Nat) : Effect → List Nat
  | Effect.closeReq id => docs.filter (fun d => decide (d ≠ id))
  | _ => docs

/-- Fold a whole effect list over the container's open-document set. -/
def applyEffects (docs : List Nat) (effs : List Effect) : List Nat :=
  effs.foldl applyEffect docs

/-- The debounce-timer system of `schedule_watch_refresh_for_group`
(watch_folder.rs:693): per group a `refresh_pending` flag inside its
state, and the multiset of in-flight 250ms timer tasks.  The timer tasks
are spawned detached (`detach_and_log_err`), so stopping a group does not
cancel them; `timers` lists the group id of every timer still sleeping. -/
structure TimerSys : Type where
  groups : List (Nat × Bool)
  timers : List Nat
deriving DecidableEq

/-- Events of the debounce-timer system: a refresh request
(`schedule_watch_refresh_for_group`), a timer firing (the body after the
250ms sleep), a group stop, and a fresh install of a group's state by a
start continuation (`refresh_pending: false`). -/
inductive TimerEv : Type
  | schedule (g : Nat)
  | fire (g : Nat)
  | stop (g : Nat)
  | install (g : Nat)
deriving DecidableEq

/-- Count occurrences in a list of ids. -/
def countNat (g : Nat) : List Nat → Nat
  | [] => 0
  | x :: xs => (if x = g then 1 else 0) + countNat g xs

/-- Remove one occurrence from a list of ids. -/
def eraseOne (g : Nat) : List Nat → List Nat
  | [] => []
  | x :: xs => if x = g then xs else x :: eraseOne g xs

/-- One step of the debounce-timer system.
* `schedule g` (watch_folder.rs:699..705): no group, or
  `refresh_pending` already set, is a no-op; otherwise set the flag and
  spawn one detached timer.
* `fire g` (watch_folder.rs:713..718): clear the flag if the group still
  exists, then run the dirty-path refresh (which itself no-ops on a
  missing or paused group); one sleeping timer is consumed.
* `stop g`: the group's state is removed; detached timers survive.
* `install g`: a start continuation installs a fresh state with
  `refresh_pending: false`. -/
def timerStepE (s : TimerSys) : TimerEv → TimerSys × List Effect
  | TimerEv.schedule g =>
    match lookupA g s.groups with
    | none => (s, [])
    | some true => (s, [])
    | some false => (⟨insertA g true s.groups, g :: s.timers⟩, [])
  | TimerEv.fire g =>
    (⟨(match lookupA g s.groups with
       | some _ => insertA g false s.groups
       | none => s.groups),
      eraseOne g s.timers⟩,
     [Effect.runRefresh g])
  | TimerEv.stop g => (⟨eraseA g s.groups, s.timers⟩, [])
  | TimerEv.install g => (⟨insertA g false s.groups, s.timers⟩, [])

/-- Run a trace of timer events (state part only). -/
def runTimerTrace (s : TimerSys) (evs : List TimerEv) : TimerSys :=
  evs.foldl (fun s e => (timerStepE s e).1) s

/-- The guard invariant of the debounce system for one group: the number
of sleeping timers matches the `refresh_pending` flag. -/
def TimerInv (g : Nat) (s : TimerSys) : Prop :=
  countNat g s.timers = (if lookupA g s.groups = some true then 1 else 0)

/-- Claim-side definition (spec 4.4 / claim C5 wording): the initial
`was_dirty` as the claim states it — triggered by a raw filesystem event
or currently reported dirty, with no dependence on `close_when_clean`. -/
def was_dirty_claim (env : Env) (pp : ProjPath) (opened_from_fs : Bool) : Bool :=
  opened_from_fs || env.isDirtyNow pp

/-- Claim-side definition (spec 4.2 / claim C9 wording): a batch entry is
a candidate when its kind is Created/Changed/unknown and its path is not
hidden, not user-ignored, carries no binary-artifact suffix, and is a
plain file. -/
def claim_batch_candidates (env : Env) (root : PathC) (batch : List PathEvent) :
    List PathC :=
  batch.filterMap (fun e =>
    match e.kind with
    | some PathEventKind.Removed => none
    | _ =>
      if is_hidden_path root e.path
         || is_ignored_path root e.path env.ignored
         || is_binary_artifact_abs_path e.path
         || !env.isFile e.path then none
      else some e.path)

/-- Invariant of claim C2: no path is both pending and tracked. -/
def DisjointInv (st : GroupState) : Prop :=
  ∀ pp, pp ∈ st.pending_paths → lookupA pp st.watched_items = none

/-- Environment consistency: every tracked path has an open document
attributed to the group.  The source maintains this through
`forget_watched_item`, which is invoked on every close path of a tracked
document; the open-skip check of the reconciliation loops consults the
container (`item_for_project_path_in_group`), not `watched_items`, so the
claimed invariants are relative to this consistency. -/
def EnvConsistent (env : Env) (st : GroupState) : Prop :=
  ∀ pp it, lookupA pp st.watched_items = some it → env.isOpenInGroup pp = true

/-- Invariant of claim C3: `watched_item_ids` and `watched_items` are
exact inverses. -/
def InvPair (st : GroupState) : Prop :=
  ∀ id pp, lookupA id st.watched_item_ids = some pp ↔
    (∃ it, lookupA pp st.watched_items = some it ∧ it.item_id = id)

/-- Freshness precondition of an operation: a successful open completion
delivers a path that is not yet tracked and a document identity that is
not yet tracked (the open was issued only for a non-open, non-pending
path, and the container hands back the document it opened for it). -/
def OpFresh (st : GroupState) : WatchOp → Prop
  | WatchOp.openOk pp _ _ id =>
    lookupA pp st.watched_items = none ∧ lookupA id st.watched_item_ids = none
  | _ => True

/-- A concrete oracle set used by the concrete evaluations: nothing open,
everything resolves into a repository, nothing currently dirty, every
path a plain file, every item in a pane, no ignore names. -/
def envA : Env :=
  { isOpenInGroup := fun _ => false
    shouldCWC := fun _ => true
    isDirtyNow := fun _ => false
    isFile := fun _ => true
    hasPane := fun _ => true
    ignored := [] }

/-- A concrete oracle set where nothing resolves into a repository. -/
def envB : Env :=
  { isOpenInGroup := fun _ => false
    shouldCWC := fun _ => false
    isDirtyNow := fun _ => false
    isFile := fun _ => true
    hasPane := fun _ => true
    ignored := [] }

/-- An empty group state rooted at `r`. -/
def stEmpty : GroupState :=
  { root_path := ["r"]
    root_rel_path := []
    paused := false
    refresh_pending := false
    watched_items := []
    watched_item_ids := []
    pending_paths := [] }

/-- A group state tracking one item, opened while its path did not
resolve into a repository: `close_when_clean = false`, `was_dirty =
false`, exactly what `open_complete_ok` inserts in that case. -/
def stTracked : GroupState :=
  { root_path := ["r"]
    root_rel_path := []
    paused := false
    refresh_pending := false
    watched_items := [(["x.txt"], WatchedItem.mk 1 false false)]
    watched_item_ids := [(1, ["x.txt"])]
    pending_paths := [] }

/-- A concrete workspace-level store with one running group. -/
def wsSample : WorkspaceW :=
  { watch_groups := [(0, stTracked)]
    watch_request_ids := [(0, 3)]
    next_watch_request_id := 3 }

/-! ### Association-list and set lemmas -/

theorem lookupA_eraseA {α β : Type} [DecidableEq α] (k q : α) (l : List (α × β)) :
    lookupA q (eraseA k l) = if q = k then none else lookupA q l := by
  induction l with
  | nil => simp [eraseA, lookupA]
  | cons kv rest ih =>
    by_cases hk : kv.1 = k <;> by_cases hq : q = k <;> by_cases hv : kv.1 = q <;>
      simp_all [eraseA, lookupA]

theorem lookupA_insertA {α β : Type} [DecidableEq α] (k q : α) (v : β) (l : List (α × β)) :
    lookupA q (insertA k v l) = if q = k then some v else lookupA q l := by
  by_cases h : q = k
  · simp [insertA, lookupA, h]
  · have hk : ¬ k = q := fun e => h e.symm
    simp [insertA, lookupA, h, hk, lookupA_eraseA]

theorem mem_removePP (q p : ProjPath) (l : List ProjPath) :
    q ∈ removePP p l ↔ q ∈ l ∧ q ≠ p := by
  induction l with
  | nil => simp [removePP]
  | cons x rest ih =>
    by_cases hx : x = p
    · subst hx
      rw [show removePP x (x :: rest) = removePP x rest from by simp [removePP]]
      rw [ih, List.mem_cons]
      constructor
      · rintro ⟨h1, h2⟩
        exact ⟨Or.inr h1, h2⟩
      · rintro ⟨rfl | h1, h2⟩
        · exact absurd rfl h2
        · exact ⟨h1, h2⟩
    · rw [show removePP p (x :: rest) = x :: removePP p rest from by simp [removePP, hx]]
      rw [List.mem_cons, ih, List.mem_cons]
      constructor
      · rintro (rfl | ⟨h1, h2⟩)
        · exact ⟨Or.inl rfl, hx⟩
        · exact ⟨Or.inr h1, h2⟩
      · rintro ⟨rfl | h1, h2⟩
        · exact Or.inl rfl
        · exact Or.inr ⟨h1, h2⟩

theorem mem_insertSet (q p : ProjPath) (l : List ProjPath) :
    q ∈ insertSet p l ↔ q = p ∨ q ∈ l := by
  by_cases h : p ∈ l
  · rw [show insertSet p l = l from by simp [insertSet, h]]
    constructor
    · exact Or.inr
    · rintro (rfl | hq)
      · exact h
      · exact hq
  · rw [show insertSet p l = p :: l from by simp [insertSet, h]]
    exact List.mem_cons

theorem mem_foldl_insertSet (xs : List (ProjPath × Bool)) (l : List ProjPath) (q : ProjPath) :
    q ∈ xs.foldl (fun acc x => insertSet x.1 acc) l ↔ q ∈ l ∨ ∃ b, (q, b) ∈ xs := by
  induction xs generalizing l with
  | nil => simp
  | cons x rest ih =>
    rw [List.foldl_cons, ih, mem_insertSet]
    constructor
    · rintro ((rfl | hq) | ⟨b, hb⟩)
      · exact Or.inr ⟨x.2, by simp⟩
      · exact Or.inl hq
      · exact Or.inr ⟨b, List.mem_cons_of_mem _ hb⟩
    · rintro (hq | ⟨b, hb⟩)
      · exact Or.inl (Or.inr hq)
      · rcases List.mem_cons.mp hb with heq | hmem
        · exact Or.inl (Or.inl (by rw [← heq]))
        · exact Or.inr ⟨b, hmem⟩

/-! ### Lemmas about the reconciliation phases -/

theorem lookupA_mapVal (f : ProjPath → WatchedItem → WatchedItem) (q : ProjPath)
    (l : List (ProjPath × WatchedItem)) :
    lookupA q (l.map (fun kv => (kv.1, f kv.1 kv.2))) = (lookupA q l).map (f q) := by
  induction l with
  | nil => simp [lookupA]
  | cons kv rest ih =>
    by_cases hp : kv.1 = q
    · simp [lookupA, hp]
    · simp [lookupA, hp, ih]

theorem lookupA_enableClose (env : Env) (q : ProjPath)
    (items : List (ProjPath × WatchedItem)) :
    lookupA q (enableClosePhase env items) =
      (lookupA q items).map (enableCloseEntry env q) :=
  lookupA_mapVal (enableCloseEntry env) q items

theorem lookupA_markDirty (dirty : List ProjPath) (q : ProjPath)
    (items : List (ProjPath × WatchedItem)) :
    lookupA q (markDirtyPhase dirty items) =
      (lookupA q items).map (markDirtyEntry dirty q) :=
  lookupA_mapVal (markDirtyEntry dirty) q items

theorem handlePassEntry_some (env : Env) (st : GroupState) (snap : List ProjPath)
    (path : PathC) (pp : ProjPath) (b : Bool)
    (h : handlePassEntry env st snap path = some (pp, b)) :
    env.isOpenInGroup pp = false ∧ pp ∉ snap := by
  unfold handlePassEntry at h
  split at h
  · exact absurd h (by simp)
  · split at h
    · exact absurd h (by simp)
    · split at h
      · exact absurd h (by simp)
      · rename_i pp' _
        split at h
        · exact absurd h (by simp)
        · split at h
          · exact absurd h (by simp)
          · split at h
            · exact absurd h (by simp)
            · rename_i h1 h2 h3
              have hpp : pp' = pp := congrArg Prod.fst (Option.some.inj h)
              subst hpp
              exact ⟨by simpa using h2, h3⟩

theorem openPhaseEntry_some (env : Env) (snap : List ProjPath) (p pp : ProjPath) (b : Bool)
    (h : openPhaseEntry env snap p = some (pp, b)) :
    pp = p ∧ env.isOpenInGroup pp = false ∧ pp ∉ snap := by
  unfold openPhaseEntry at h
  split at h
  · exact absurd h (by simp)
  · split at h
    · exact absurd h (by simp)
    · rename_i h1 h2
      have hpp : p = pp := congrArg Prod.fst (Option.some.inj h)
      subst hpp
      exact ⟨rfl, by simpa using h1, h2⟩

theorem forget_pending_sub (id : Nat) (st : GroupState) (q : ProjPath)
    (h : q ∈ (forget_watched_item id st).pending_paths) : q ∈ st.pending_paths := by
  unfold forget_watched_item at h
  split at h
  · exact h
  · exact ((mem_removePP _ _ _).mp h).1

theorem forget_lookup_none (id : Nat) (st : GroupState) (q : ProjPath)
    (h : lookupA q st.watched_items = none) :
    lookupA q (forget_watched_item id st).watched_items = none := by
  unfold forget_watched_item
  split
  · exact h
  · rw [lookupA_eraseA]
    split
    · rfl
    · exact h

theorem close_watched_item_fst (env : Env) (id : Nat) (st : GroupState) :
    (close_watched_item env id st).1 =
      if env.hasPane id then forget_watched_item id st else st := by
  unfold close_watched_item
  split <;> simp_all

theorem close_items_cons (env : Env) (id : Nat) (rest : List Nat) (st : GroupState) :
    close_items env (id :: rest) st = close_items env rest (close_watched_item env id st).1 :=
  rfl

theorem close_items_pending_sub (env : Env) (ids : List Nat) (st : GroupState) (q : ProjPath)
    (h : q ∈ (close_items env ids st).pending_paths) : q ∈ st.pending_paths := by
  induction ids generalizing st with
  | nil => exact h
  | cons id rest ih =>
    rw [close_items_cons] at h
    have h2 := ih _ h
    rw [close_watched_item_fst] at h2
    by_cases hp : env.hasPane id = true
    · rw [if_pos hp] at h2
      exact forget_pending_sub id st q h2
    · rw [if_neg (by simpa using hp)] at h2
      exact h2

theorem close_items_lookup_none (env : Env) (ids : List Nat) (st : GroupState) (q : ProjPath)
    (h : lookupA q st.watched_items = none) :
    lookupA q (close_items env ids st).watched_items = none := by
  induction ids generalizing st with
  | nil => exact h
  | cons id rest ih =>
    rw [close_items_cons]
    refine ih _ ?_
    rw [close_watched_item_fst]
    by_cases hp : env.hasPane id = true
    · rw [if_pos hp]
      exact forget_lookup_none id st q h
    · rw [if_neg (by simpa using hp)]
      exact h

theorem mem_close_effects (env : Env) (ids : List Nat) (id : Nat) :
    Effect.closeReq id ∈ close_effects env ids ↔ id ∈ ids ∧ env.hasPane id = true := by
  unfold close_effects
  rw [List.mem_map]
  constructor
  · rintro ⟨j, hj, he⟩
    have hji : j = id := by
      cases he
      rfl
    subst hji
    exact ⟨(List.mem_filter.mp hj).1, (List.mem_filter.mp hj).2⟩
  · rintro ⟨h1, h2⟩
    exact ⟨id, List.mem_filter.mpr ⟨h1, h2⟩, rfl⟩

/-! ### Dispatcher lemmas -/

theorem fsEventCandidate_eq (env : Env) (root : PathC) (e : PathEvent) :
    fsEventCandidate env root e =
      if e.kind = some PathEventKind.Removed then none
      else if is_hidden_path root e.path then none
      else if env.isFile e.path then some e.path else none := by
  rcases e with ⟨pa, k⟩
  rcases k with _ | k
  · rfl
  · cases k <;> rfl

theorem mem_batchCandidates (env : Env) (root : PathC) (batch : List PathEvent) (p : PathC) :
    p ∈ batchCandidates env root batch ↔
      ∃ e, e ∈ batch ∧ e.path = p ∧ e.kind ≠ some PathEventKind.Removed ∧
        is_hidden_path root p = false ∧ env.isFile p = true := by
  rw [batchCandidates, List.mem_filterMap]
  constructor
  · rintro ⟨e, he, hf⟩
    rw [fsEventCandidate_eq] at hf
    split_ifs at hf with h1 h2 h3
    all_goals
      first
      | exact Option.noConfusion hf
      | (have hp : e.path = p := Option.some.inj hf
         subst hp
         exact ⟨e, he, rfl, h1, by simpa using h2, h3⟩)
  · rintro ⟨e, he, rfl, h1, h2, h3⟩
    refine ⟨e, he, ?_⟩
    rw [fsEventCandidate_eq]
    simp [h1, h2, h3]

theorem applyEffects_clearPane (docs : List Nat) (l : List (Nat × GroupState)) :
    applyEffects docs (l.map (fun kv => Effect.clearPaneMetadata kv.1)) = docs := by
  induction l generalizing docs with
  | nil => rfl
  | cons kv rest ih => exact ih docs

theorem mod_succ_ne (x W : Nat) (hW : 1 < W) (hx : x < W) : (x + 1) % W ≠ x := by
  by_cases h : x + 1 < W
  · rw [Nat.mod_eq_of_lt h]
    omega
  · have hxw : x + 1 = W := by omega
    rw [hxw, Nat.mod_self]
    omega

/-! ### Claim theorems -/

/-- C4 (code_bug evaluation): one 150ms batch holding two events for the
same new path `r/a.txt` (a creation immediately followed by a
modification of the same file produces exactly this) makes
`handle_watch_fs_paths` issue TWO open requests for `a.txt`: the
pending-set snapshot is cloned before the loop and only written back
after it, so the second occurrence is not filtered by the
skip-if-pending check.  The pending set itself ends up with a single
entry.  A later batch for the same path is then correctly skipped (third
conjunct: only the debounced-refresh request is issued). -/
theorem c4_duplicate_event_double_open :
    (handle_watch_fs_paths envA stEmpty [["r", "a.txt"], ["r", "a.txt"]]).2
      = [Effect.openReq ["a.txt"] true true, Effect.openReq ["a.txt"] true true,
         Effect.requestRefresh] ∧
    (handle_watch_fs_paths envA stEmpty [["r", "a.txt"], ["r", "a.txt"]]).1.pending_paths
      = [["a.txt"]] ∧
    (handle_watch_fs_paths envA
        (handle_watch_fs_paths envA stEmpty [["r", "a.txt"], ["r", "a.txt"]]).1
        [["r", "a.txt"]]).2
      = [Effect.requestRefresh] := by
  refine ⟨by decide, by decide, by decide⟩

/-- C5 (counterexample): an open completion with `close_when_clean =
false` and `opened_from_fs = true` stores `was_dirty = false`, while the
claim ("true if and only if the open was triggered by a raw filesystem
event or the store reports the path dirty, regardless of
close_when_clean") demands `true` here: `was_dirty_claim` evaluates to
`true` at the same input. -/
theorem c5_counterexample :
    lookupA ["a"] (open_complete_ok envB ["a"] false true 7 stEmpty).watched_items
      = some (WatchedItem.mk 7 false false) ∧
    was_dirty_claim envB ["a"] true = true := by
  refine ⟨by decide, by decide⟩

/-- C5 (amended): on every successful open completion the inserted
item's initial `was_dirty` is `close_when_clean && (opened_from_fs ||
currently-dirty)` — i.e. the claimed disjunction gated by
`close_when_clean`, false whenever `close_when_clean` is false — the
reverse mapping is inserted, and the path is removed from
`pending_paths` in the same step. -/
theorem c5_initial_was_dirty (env : Env) (pp : ProjPath) (cwc fromFs : Bool)
    (id : Nat) (st : GroupState) :
    lookupA pp (open_complete_ok env pp cwc fromFs id st).watched_items
      = some (WatchedItem.mk id cwc (cwc && (fromFs || env.isDirtyNow pp))) ∧
    lookupA id (open_complete_ok env pp cwc fromFs id st).watched_item_ids = some pp ∧
    (∀ q, q ∈ (open_complete_ok env pp cwc fromFs id st).pending_paths ↔
      q ∈ st.pending_paths ∧ q ≠ pp) := by
  refine ⟨?_, ?_, ?_⟩
  · have hwd : (if cwc = true then fromFs || env.isDirtyNow pp else false)
        = (cwc && (fromFs || env.isDirtyNow pp)) := by
      cases cwc <;> simp
    show lookupA pp (insertA pp _ st.watched_items) = _
    rw [lookupA_insertA, if_pos rfl, hwd]
  · show lookupA id (insertA id pp st.watched_item_ids) = _
    rw [lookupA_insertA, if_pos rfl]
  · intro q
    exact mem_removePP q pp st.pending_paths

/-- C5 witness: the amended statement applied at a concrete input. -/
theorem c5_initial_was_dirty_witness :
    lookupA ["w.txt"] (open_complete_ok envA ["w.txt"] true true 4 stEmpty).watched_items
      = some (WatchedItem.mk 4 true true) :=
  (c5_initial_was_dirty envA ["w.txt"] true true 4 stEmpty).1

/-- C6: a failed open completion removes the path from `pending_paths`
(so it can be retried by a later event), leaves every other group field
untouched, and swallows the error exactly when some cause in its chain
contains the binary-content message; any other failure is surfaced as a
background error. -/
theorem c6_open_failure_handling (pp : ProjPath) (chain : List String) (st : GroupState) :
    (open_complete_err pp chain st).1.watched_items = st.watched_items ∧
    (open_complete_err pp chain st).1.watched_item_ids = st.watched_item_ids ∧
    (open_complete_err pp chain st).1.paused = st.paused ∧
    (open_complete_err pp chain st).1.refresh_pending = st.refresh_pending ∧
    (∀ q, q ∈ (open_complete_err pp chain st).1.pending_paths ↔
      q ∈ st.pending_paths ∧ q ≠ pp) ∧
    (is_binary_open_error chain = true ↔
      ∃ c ∈ chain, containsSub ("Binary files are not supported").toList c.toList = true) ∧
    ((open_complete_err pp chain st).2 = [] ↔ is_binary_open_error chain = true) ∧
    (Effect.bgError chain ∈ (open_complete_err pp chain st).2 ↔
      is_binary_open_error chain = false) := by
  refine ⟨rfl, rfl, rfl, rfl, fun q => mem_removePP q pp st.pending_paths, ?_, ?_, ?_⟩
  · simp [is_binary_open_error, List.any_eq_true]
  · by_cases hb : is_binary_open_error chain = true <;>
      simp [open_complete_err, hb]
  · by_cases hb : is_binary_open_error chain = true <;>
      simp [open_complete_err, hb]

/-- C6 witness: the binary failure is swallowed, the other one surfaces,
both at concrete inputs obtained from the theorem. -/
theorem c6_open_failure_witness :
    ((open_complete_err ["a"] ["Binary files are not supported"] stTracked).2 = [] ↔
      is_binary_open_error ["Binary files are not supported"] = true) ∧
    (Effect.bgError ["eacces"] ∈ (open_complete_err ["a"] ["eacces"] stTracked).2 ↔
      is_binary_open_error ["eacces"] = false) :=
  ⟨(c6_open_failure_handling ["a"] ["Binary files are not supported"] stTracked).2.2.2.2.2.2.1,
   (c6_open_failure_handling ["a"] ["eacces"] stTracked).2.2.2.2.2.2.2⟩

/-- C9 (counterexample): a batch holding one Created event for the plain
file `r/b.o` — not hidden, not ignored, but carrying the binary-artifact
suffix `o`, hence yielding no candidate in the claim's sense
(`claim_batch_candidates` is empty) — still makes the dispatcher request
a debounced refresh: `handle_watch_fs_paths` computes `has_paths` from
the incoming list before the ignored/binary filters run, so the effect
list is exactly `[Effect.requestRefresh]`. -/
theorem c9_counterexample :
    (dispatchBatch envA stEmpty [PathEvent.mk ["r", "b.o"] (some PathEventKind.Created)]).2
      = [Effect.requestRefresh] ∧
    claim_batch_candidates envA ["r"]
      [PathEvent.mk ["r", "b.o"] (some PathEventKind.Created)] = [] := by
  refine ⟨by decide, by decide⟩

/-- C9 (amended): for a live group, a filesystem-event batch requests a
debounced refresh iff the group is unpaused and at least one entry
survives the dispatcher-level filters — kind Created/Changed/unknown, not
under a hidden component, a plain file.  The user-ignored-name and
binary-suffix filters run later, inside the path-arrival handler, and do
not gate the refresh request. -/
theorem c9_refresh_request_characterization (env : Env) (st : GroupState)
    (batch : List PathEvent) :
    (Effect.requestRefresh ∈ (dispatchBatch env st batch).2 ↔
      st.paused = false ∧ batchCandidates env st.root_path batch ≠ []) ∧
    (∀ p, p ∈ batchCandidates env st.root_path batch ↔
      ∃ e, e ∈ batch ∧ e.path = p ∧ e.kind ≠ some PathEventKind.Removed ∧
        is_hidden_path st.root_path p = false ∧ env.isFile p = true) := by
  refine ⟨?_, fun p => mem_batchCandidates env st.root_path batch p⟩
  unfold dispatchBatch
  by_cases hc : (batchCandidates env st.root_path batch).isEmpty = true
  · rw [if_pos hc]
    simp [List.isEmpty_iff.mp hc]
  · rw [if_neg hc]
    unfold handle_watch_fs_paths
    by_cases hp : st.paused = true
    · simp [hp]
    · have hp' : st.paused = false := by simpa using hp
      rw [hp']
      simp only [Bool.false_eq_true, if_false]
      rw [if_neg hc]
      simp [List.mem_map]
      simpa [List.isEmpty_iff] using hc

/-- C9 witness: the amended characterization applied at a concrete batch
(one plain-text creation under the root). -/
theorem c9_refresh_request_witness :
    Effect.requestRefresh ∈
      (dispatchBatch envA stEmpty
        [PathEvent.mk ["r", "c.txt"] (some PathEventKind.Created)]).2 :=
  (c9_refresh_request_characterization envA stEmpty
    [PathEvent.mk ["r", "c.txt"] (some PathEventKind.Created)]).1.mpr
    ⟨rfl, by decide⟩

/-- C10: stopping one group and stopping all groups discard the group
state and (for a running store) the request ids, and clear per-pane
metadata, but emit no close request: folding the emitted effects over any
set of open documents leaves it unchanged, so every document open as a
watched item at the moment of stop remains open. -/
theorem c10_stop_closes_nothing (ws : WorkspaceW) (g : Nat) (docs : List Nat) :
    applyEffects docs (stop_watching_group g ws).2 = docs ∧
    (∀ id, Effect.closeReq id ∈ (stop_watching_group g ws).2 → False) ∧
    lookupA g ((stop_watching_group g ws).1).watch_groups = none ∧
    lookupA g ((stop_watching_group g ws).1).watch_request_ids = none ∧
    applyEffects docs (stop_watching_folder ws).2 = docs ∧
    (∀ id, Effect.closeReq id ∈ (stop_watching_folder ws).2 → False) ∧
    (stop_watching_folder ws).1.watch_groups = [] ∧
    (ws.watch_groups.isEmpty = false →
      (stop_watching_folder ws).1.watch_request_ids = []) := by
  refine ⟨rfl, ?_, ?_, ?_, ?_, ?_, ?_, ?_⟩
  · intro id h
    simp [stop_watching_group] at h
  · rw [show ((stop_watching_group g ws).1).watch_groups = eraseA g ws.watch_groups from rfl]
    rw [lookupA_eraseA]
    simp
  · rw [show ((stop_watching_group g ws).1).watch_request_ids
        = eraseA g ws.watch_request_ids from rfl]
    rw [lookupA_eraseA]
    simp
  · by_cases he : ws.watch_groups.isEmpty = true
    · rw [show stop_watching_folder ws = (ws, []) from by simp [stop_watching_folder, he]]
      rfl
    · rw [show (stop_watching_folder ws).2
          = ws.watch_groups.map (fun kv => Effect.clearPaneMetadata kv.1) from by
        simp [stop_watching_folder, he]]
      exact applyEffects_clearPane docs ws.watch_groups
  · intro id h
    by_cases he : ws.watch_groups.isEmpty = true
    · rw [show stop_watching_folder ws = (ws, []) from by simp [stop_watching_folder, he]] at h
      simp at h
    · rw [show (stop_watching_folder ws).2
          = ws.watch_groups.map (fun kv => Effect.clearPaneMetadata kv.1) from by
        simp [stop_watching_folder, he]] at h
      simp at h
  · by_cases he : ws.watch_groups.isEmpty = true
    · rw [show stop_watching_folder ws = (ws, []) from by simp [stop_watching_folder, he]]
      exact List.isEmpty_iff.mp he
    · rw [show (stop_watching_folder ws).1
          = { ws with watch_groups := [], watch_request_ids := [] } from by
        simp [stop_watching_folder, he]]
  · intro he
    rw [show (stop_watching_folder ws).1
        = { ws with watch_groups := [], watch_request_ids := [] } from by
      simp [stop_watching_folder, he]]

/-- C10 witness: stopping the sample store keeps the externally open
documents untouched. -/
theorem c10_stop_closes_nothing_witness :
    applyEffects [1, 5] (stop_watching_group 0 wsSample).2 = [1, 5] :=
  (c10_stop_closes_nothing wsSample 0 [1, 5]).1

/-- C7: the request-id race guard.  If, when a start continuation for
group `g` carrying request id `rid` finally runs, the stored id no longer
equals `rid` — which is the situation after a `stop_watching_group g`
(which clears the stored id entirely, second and third conjuncts) or
after a newer start for `g` (which stores the freshly incremented counter
value, a different id: fourth and fifth conjuncts) — then the
continuation is a complete no-op on the store and the watcher it built is
released instead of being installed (first conjunct).  Only the
continuation whose request id is current installs a `GroupWatchState`. -/
theorem c7_stale_continuation_noop (ws : WorkspaceW) (g rid : Nat) (gs : GroupState)
    (hstale : lookupA g ws.watch_request_ids ≠ some rid) :
    start_complete g rid gs ws = (ws, [Effect.watcherReleased]) ∧
    lookupA g ((stop_watching_group g ws).1).watch_request_ids = none ∧
    lookupA g ((stop_watching_group g ws).1).watch_groups = none ∧
    (start_begin g (start_begin g ws).1).2 ≠ (start_begin g ws).2 ∧
    lookupA g ((start_begin g (start_begin g ws).1).1).watch_request_ids
      = some ((start_begin g (start_begin g ws).1).2) := by
  refine ⟨?_, ?_, ?_, ?_, ?_⟩
  · unfold start_complete
    rw [if_neg hstale]
  · rw [show ((stop_watching_group g ws).1).watch_request_ids
        = eraseA g ws.watch_request_ids from rfl]
    rw [lookupA_eraseA]
    simp
  · rw [show ((stop_watching_group g ws).1).watch_groups
        = eraseA g ws.watch_groups from rfl]
    rw [lookupA_eraseA]
    simp
  · show ((ws.next_watch_request_id + 1) % 2 ^ 64 + 1) % 2 ^ 64
      ≠ (ws.next_watch_request_id + 1) % 2 ^ 64
    exact mod_succ_ne _ _ (by norm_num)
      (Nat.mod_lt _ (by norm_num))
  · show lookupA g (insertA g ((start_begin g (start_begin g ws).1).2) _) = _
    rw [lookupA_insertA, if_pos rfl]

/-- C7 witness: a freshly emptied store never matches request id 1, so
the stale continuation at that id changes nothing and releases its
watcher. -/
theorem c7_stale_continuation_noop_witness :
    start_complete 0 1 stEmpty (WorkspaceW.mk [] [] 0)
      = (WorkspaceW.mk [] [] 0, [Effect.watcherReleased]) :=
  (c7_stale_continuation_noop (WorkspaceW.mk [] [] 0) 0 1 stEmpty (by decide)).1

theorem mem_toCloseIds (dirty : List ProjPath) (items : List (ProjPath × WatchedItem))
    (id : Nat) :
    id ∈ toCloseIds dirty items ↔
      ∃ pp it, (pp, it) ∈ items ∧ pp ∉ dirty ∧
        it.close_when_clean = true ∧ it.was_dirty = true ∧ it.item_id = id := by
  rw [toCloseIds, List.mem_filterMap]
  constructor
  · rintro ⟨kv, hkv, hf⟩
    split_ifs at hf with h1 h2
    all_goals
      first
      | exact Option.noConfusion hf
      | (refine ⟨kv.1, kv.2, hkv, h1, ?_, ?_, Option.some.inj hf⟩ <;>
          simp_all)
  · rintro ⟨pp, it, hmem, h1, h2, h3, h4⟩
    refine ⟨(pp, it), hmem, ?_⟩
    simp [h1, h2, h3, h4]

theorem mem_enableClosePhase (env : Env) (items : List (ProjPath × WatchedItem))
    (pp : ProjPath) (it1 : WatchedItem) :
    (pp, it1) ∈ enableClosePhase env items ↔
      ∃ it, (pp, it) ∈ items ∧ it1 = enableCloseEntry env pp it := by
  rw [enableClosePhase, List.mem_map]
  constructor
  · rintro ⟨kv, hkv, he⟩
    have h1 : kv.1 = pp := congrArg Prod.fst he
    have h2 : enableCloseEntry env kv.1 kv.2 = it1 := congrArg Prod.snd he
    subst h1
    exact ⟨kv.2, hkv, h2.symm⟩
  · rintro ⟨it, hmem, rfl⟩
    exact ⟨(pp, it), hmem, rfl⟩

theorem toCloseIds_enableClose (env : Env) (dirty : List ProjPath)
    (items : List (ProjPath × WatchedItem)) (id : Nat) :
    id ∈ toCloseIds dirty (enableClosePhase env items) ↔
      ∃ pp it, (pp, it) ∈ items ∧ pp ∉ dirty ∧ it.item_id = id ∧
        ((it.close_when_clean = true ∧ it.was_dirty = true) ∨
         (it.close_when_clean = false ∧ env.shouldCWC pp = true)) := by
  rw [mem_toCloseIds]
  constructor
  · rintro ⟨pp, it1, hmem, hnd, hc, hw, hid⟩
    rcases (mem_enableClosePhase env items pp it1).mp hmem with ⟨it, hit, rfl⟩
    refine ⟨pp, it, hit, hnd, ?_, ?_⟩
    · rw [← hid]
      unfold enableCloseEntry
      split <;> rfl
    · by_cases hcc : it.close_when_clean = true
      · left
        refine ⟨hcc, ?_⟩
        unfold enableCloseEntry at hw
        rw [if_neg (by simp [hcc])] at hw
        exact hw
      · right
        refine ⟨by simpa using hcc, ?_⟩
        by_cases hs : env.shouldCWC pp = true
        · exact hs
        · unfold enableCloseEntry at hc
          rw [if_neg (by simp [hs])] at hc
          exact absurd hc hcc
  · rintro ⟨pp, it, hit, hnd, hid, hflags⟩
    refine ⟨pp, enableCloseEntry env pp it,
      (mem_enableClosePhase env items pp _).mpr ⟨it, hit, rfl⟩, hnd, ?_, ?_, ?_⟩
    · rcases hflags with ⟨h1, _⟩ | ⟨h1, h2⟩
      · unfold enableCloseEntry
        split <;> simp_all
      · unfold enableCloseEntry
        rw [if_pos (by simp [h1, h2])]
    · rcases hflags with ⟨h1, h2⟩ | ⟨h1, h2⟩
      · unfold enableCloseEntry
        split <;> simp_all
      · unfold enableCloseEntry
        rw [if_pos (by simp [h1, h2])]
    · unfold enableCloseEntry
      split <;> simpa using hid

/-- C1 (counterexample): a group tracks one item for `x.txt`, inserted by
a successful open at a moment when the path did not resolve into a
repository, so it carries `close_when_clean = false, was_dirty = false`.
The path was never observed dirty: the git store reports no dirty path at
all (`collect_watch_dirty_paths` is empty, and always was).  A single
refresh pass under an environment where the path now resolves into a
repository closes the item anyway: the `enable_close` pass sets
`close_when_clean := true` and `was_dirty := true` together, and the
close scan of the same pass finds the path clean — no dirty observation
and no dirty-to-clean transition ever happened while the item was
tracked, contradicting the claim. -/
theorem c1_counterexample :
    (refresh_watch_git_status envA [] stTracked).2 = [Effect.closeReq 1] ∧
    lookupA ["x.txt"] stTracked.watched_items = some (WatchedItem.mk 1 false false) ∧
    collect_watch_dirty_paths envA stTracked [] = [] := by
  refine ⟨by decide, by decide, by decide⟩

/-- C1 (amended): a refresh pass closes exactly the tracked items whose
path is absent from the freshly collected dirty set and which either
already entered the pass with `close_when_clean && was_dirty`, or have
`close_when_clean = false` while the path now resolves into a repository
(the `enable_close` flip, which sets `was_dirty := true` in the same
pass).  In particular an item tracked with `close_when_clean = true` and
`was_dirty = false` is never closed before being observed dirty — but no
actual dirty observation is required in the flip case, and a pass never
closes an item it did not already track when the pass began (opens issued
by the pass complete asynchronously, after it). -/
theorem c1_close_characterization (env : Env) (gitStatus : List ProjPath)
    (st : GroupState) (id : Nat) :
    Effect.closeReq id ∈ (refresh_watch_git_status env gitStatus st).2 ↔
      st.paused = false ∧ env.hasPane id = true ∧
      ∃ pp it, (pp, it) ∈ st.watched_items ∧
        pp ∉ collect_watch_dirty_paths env st gitStatus ∧ it.item_id = id ∧
        ((it.close_when_clean = true ∧ it.was_dirty = true) ∨
         (it.close_when_clean = false ∧ env.shouldCWC pp = true)) := by
  by_cases hp : st.paused = true
  · rw [show refresh_watch_git_status env gitStatus st = (st, []) from by
      simp [refresh_watch_git_status, hp]]
    simp [hp]
  · have hp' : st.paused = false := by simpa using hp
    rw [show (refresh_watch_git_status env gitStatus st).2
        = (refresh_open_phase env (collect_watch_dirty_paths env st gitStatus) st).2
          ++ close_effects env
              (toCloseIds (collect_watch_dirty_paths env st gitStatus)
                (enableClosePhase env st.watched_items)) from by
      simp [refresh_watch_git_status, hp']
      rfl]
    rw [List.mem_append]
    constructor
    · rintro (hopen | hclose)
      · exfalso
        rcases List.mem_map.mp hopen with ⟨x, _, heq⟩
        exact Effect.noConfusion heq
      · rcases (mem_close_effects env _ id).mp hclose with ⟨hin, hpane⟩
        rcases (toCloseIds_enableClose env _ st.watched_items id).mp hin with
          ⟨pp, it, hmem, hnd, hid, hflags⟩
        exact ⟨hp', hpane, pp, it, hmem, hnd, hid, hflags⟩
    · rintro ⟨_, hpane, pp, it, hmem, hnd, hid, hflags⟩
      exact Or.inr ((mem_close_effects env _ id).mpr
        ⟨(toCloseIds_enableClose env _ st.watched_items id).mpr
          ⟨pp, it, hmem, hnd, hid, hflags⟩, hpane⟩)

/-- C1 witness: the amended characterization applied at the concrete
flip scenario. -/
theorem c1_close_characterization_witness :
    Effect.closeReq 1 ∈ (refresh_watch_git_status envA [] stTracked).2 :=
  (c1_close_characterization envA [] stTracked 1).mpr
    ⟨rfl, rfl, ["x.txt"], WatchedItem.mk 1 false false, by decide, by decide, rfl,
      Or.inr ⟨rfl, rfl⟩⟩

/-! ### Disjointness preservation (claim C2) -/

theorem isOpen_false_lookup_none (env : Env) (st : GroupState) (pp : ProjPath)
    (henv : EnvConsistent env st) (h : env.isOpenInGroup pp = false) :
    lookupA pp st.watched_items = none := by
  cases hc : lookupA pp st.watched_items with
  | none => rfl
  | some it =>
    have := henv pp it hc
    rw [this] at h
    exact Bool.noConfusion h

theorem disjoint_handle (env : Env) (st : GroupState) (paths : List PathC)
    (henv : EnvConsistent env st) (hinv : DisjointInv st) :
    DisjointInv (handle_watch_fs_paths env st paths).1 := by
  unfold handle_watch_fs_paths
  by_cases hp : st.paused = true
  · rw [if_pos hp]
    exact hinv
  · rw [if_neg hp]
    intro q hq
    have hq' : q ∈ (paths.filterMap (handlePassEntry env st st.pending_paths)).foldl
        (fun acc x => insertSet x.1 acc) st.pending_paths := hq
    rcases (mem_foldl_insertSet _ _ _).mp hq' with hmem | ⟨b, hb⟩
    · exact hinv q hmem
    · rcases List.mem_filterMap.mp hb with ⟨path, _, hsome⟩
      exact isOpen_false_lookup_none env st q henv
        (handlePassEntry_some env st st.pending_paths path q b hsome).1

theorem disjoint_refresh (env : Env) (gitStatus : List ProjPath) (st : GroupState)
    (henv : EnvConsistent env st) (hinv : DisjointInv st) :
    DisjointInv (refresh_watch_git_status env gitStatus st).1 := by
  unfold refresh_watch_git_status
  by_cases hp : st.paused = true
  · rw [if_pos hp]
    exact hinv
  · rw [if_neg hp]
    intro q hq
    have hq2 := close_items_pending_sub env _ _ q hq
    have hq3 : q ∈ ((collect_watch_dirty_paths env st gitStatus).filterMap
        (openPhaseEntry env st.pending_paths)).foldl (fun acc x => insertSet x.1 acc)
        st.pending_paths := hq2
    suffices h0 : lookupA q st.watched_items = none by
      have h1 : lookupA q (markDirtyPhase (collect_watch_dirty_paths env st gitStatus)
          (enableClosePhase env st.watched_items)) = none := by
        rw [lookupA_markDirty, lookupA_enableClose, h0]
        rfl
      exact close_items_lookup_none env _ _ q h1
    rcases (mem_foldl_insertSet _ _ _).mp hq3 with hmem | ⟨b, hb⟩
    · exact hinv q hmem
    · rcases List.mem_filterMap.mp hb with ⟨dp, _, hsome⟩
      exact isOpen_false_lookup_none env st q henv
        (openPhaseEntry_some env st.pending_paths dp q b hsome).2.1

theorem disjoint_forget (id : Nat) (st : GroupState) (hinv : DisjointInv st) :
    DisjointInv (forget_watched_item id st) := by
  unfold forget_watched_item
  split
  · exact hinv
  · rename_i pp hpp
    intro q hq
    rcases (mem_removePP q pp st.pending_paths).mp hq with ⟨hqp, hqne⟩
    show lookupA q (eraseA pp st.watched_items) = none
    rw [lookupA_eraseA, if_neg hqne]
    exact hinv q hqp

theorem disjoint_openOk (env : Env) (pp : ProjPath) (cwc fromFs : Bool) (id : Nat)
    (st : GroupState) (hinv : DisjointInv st) :
    DisjointInv (open_complete_ok env pp cwc fromFs id st) := by
  intro q hq
  rcases (mem_removePP q pp st.pending_paths).mp hq with ⟨hqp, hqne⟩
  show lookupA q (insertA pp _ st.watched_items) = none
  rw [lookupA_insertA, if_neg hqne]
  exact hinv q hqp

/-- C2: for every group, every operation of the subsystem — path-arrival
handling, dirty-path refresh, open completion (success and failure),
promote, forget, pause/unpause — preserves the disjointness of the
tracked-path set and the pending set, provided the environment is
consistent (every tracked path has an open document attributed to the
group, which is how the source's open-skip check — a query to the
document container, not to `watched_items` — covers the tracked paths).
Stopping the group removes the whole `GroupWatchState`, leaving nothing
to violate the invariant. -/
theorem c2_pending_tracked_disjoint (env : Env) (op : WatchOp) (st : GroupState)
    (henv : EnvConsistent env st) (hinv : DisjointInv st) :
    DisjointInv (applyOp env op st).1 := by
  cases op with
  | handleFs paths => exact disjoint_handle env st paths henv hinv
  | refreshGit gs => exact disjoint_refresh env gs st henv hinv
  | openOk pp cwc fromFs id => exact disjoint_openOk env pp cwc fromFs id st hinv
  | openErr pp chain =>
    intro q hq
    exact hinv q ((mem_removePP q pp st.pending_paths).mp hq).1
  | promote id => exact disjoint_forget id st hinv
  | forget id => exact disjoint_forget id st hinv
  | setPaused gs b =>
    cases b
    · exact disjoint_refresh env gs { st with paused := false }
        (fun pp it h => henv pp it h) (fun q h => hinv q h)
    · exact fun q hq => hinv q hq

/-- C2 witness: the invariant holds after a path-arrival pass on an empty
group. -/
theorem c2_pending_tracked_disjoint_witness :
    DisjointInv (applyOp envA (WatchOp.handleFs [["r", "a.txt"]]) stEmpty).1 :=
  c2_pending_tracked_disjoint envA (WatchOp.handleFs [["r", "a.txt"]]) stEmpty
    (by intro pp it h; simp [stEmpty, lookupA] at h)
    (by intro q hq; simp [stEmpty] at hq)

/-! ### Inverse-map preservation (claim C3) -/

theorem invpair_forget (id : Nat) (st : GroupState) (hinv : InvPair st) :
    InvPair (forget_watched_item id st) := by
  unfold forget_watched_item
  split
  · exact hinv
  · rename_i pp hpp
    rcases (hinv id pp).mp hpp with ⟨itp, hitp, hitid⟩
    intro id' pp'
    show lookupA id' (eraseA id st.watched_item_ids) = some pp' ↔
      ∃ it, lookupA pp' (eraseA pp st.watched_items) = some it ∧ it.item_id = id'
    rw [lookupA_eraseA, lookupA_eraseA]
    by_cases h1 : id' = id
    · rw [if_pos h1]
      constructor
      · intro h
        exact Option.noConfusion h
      · rintro ⟨it, hit, hid⟩
        by_cases h2 : pp' = pp
        · rw [if_pos h2] at hit
          exact Option.noConfusion hit
        · rw [if_neg h2] at hit
          have hl := (hinv id' pp').mpr ⟨it, hit, hid⟩
          rw [h1] at hl
          have := hpp.symm.trans hl
          exact (h2 (Option.some.inj this).symm).elim
    · rw [if_neg h1]
      by_cases h2 : pp' = pp
      · rw [if_pos h2]
        constructor
        · intro hl
          exfalso
          rcases (hinv id' pp').mp hl with ⟨it, hit, hid⟩
          rw [h2] at hit
          rw [hitp] at hit
          have hiteq : itp = it := Option.some.inj hit
          exact h1 (by rw [← hid, ← hiteq]; exact hitid)
        · rintro ⟨it, hit, _⟩
          exact Option.noConfusion hit
      · rw [if_neg h2]
        exact hinv id' pp'

theorem invpair_close_items (env : Env) (ids : List Nat) (st : GroupState)
    (hinv : InvPair st) : InvPair (close_items env ids st) := by
  induction ids generalizing st with
  | nil => exact hinv
  | cons id rest ih =>
    rw [close_items_cons]
    refine ih _ ?_
    rw [close_watched_item_fst]
    by_cases hp : env.hasPane id = true
    · rw [if_pos hp]
      exact invpair_forget id st hinv
    · rw [if_neg (by simpa using hp)]
      exact hinv

theorem item_id_mark_enable (env : Env) (dirty : List ProjPath) (q : ProjPath)
    (it : WatchedItem) :
    (markDirtyEntry dirty q (enableCloseEntry env q it)).item_id = it.item_id := by
  unfold markDirtyEntry enableCloseEntry
  split_ifs <;> rfl

theorem invpair_refresh (env : Env) (gitStatus : List ProjPath) (st : GroupState)
    (hinv : InvPair st) : InvPair (refresh_watch_git_status env gitStatus st).1 := by
  unfold refresh_watch_git_status
  by_cases hp : st.paused = true
  · rw [if_pos hp]
    exact hinv
  · rw [if_neg hp]
    refine invpair_close_items env _ _ ?_
    intro id' pp'
    show lookupA id' st.watched_item_ids = some pp' ↔
      ∃ it, lookupA pp' (markDirtyPhase (collect_watch_dirty_paths env st gitStatus)
        (enableClosePhase env st.watched_items)) = some it ∧ it.item_id = id'
    rw [lookupA_markDirty, lookupA_enableClose]
    rw [hinv id' pp']
    cases hc : lookupA pp' st.watched_items with
    | none => simp
    | some it => simp [item_id_mark_enable]

theorem invpair_openOk (env : Env) (pp : ProjPath) (cwc fromFs : Bool) (id : Nat)
    (st : GroupState)
    (hfresh1 : lookupA pp st.watched_items = none)
    (hfresh2 : lookupA id st.watched_item_ids = none)
    (hinv : InvPair st) : InvPair (open_complete_ok env pp cwc fromFs id st) := by
  intro id' pp'
  show lookupA id' (insertA id pp st.watched_item_ids) = some pp' ↔
    ∃ it, lookupA pp'
      (insertA pp
        (WatchedItem.mk id cwc (if cwc = true then fromFs || env.isDirtyNow pp else false))
        st.watched_items) = some it ∧ it.item_id = id'
  rw [lookupA_insertA, lookupA_insertA]
  by_cases h1 : id' = id
  · subst h1
    rw [if_pos rfl]
    by_cases h2 : pp' = pp
    · subst h2
      rw [if_pos rfl]
      simp
    · rw [if_neg h2]
      constructor
      · intro h
        exact absurd (Option.some.inj h) (fun e => h2 e.symm)
      · rintro ⟨it, hit, hid⟩
        have hl := (hinv id' pp').mpr ⟨it, hit, hid⟩
        rw [hfresh2] at hl
        exact Option.noConfusion hl
  · rw [if_neg h1]
    by_cases h2 : pp' = pp
    · subst h2
      rw [if_pos rfl]
      constructor
      · intro h
        exfalso
        rcases (hinv id' pp').mp h with ⟨it, hit, _⟩
        rw [hfresh1] at hit
        exact Option.noConfusion hit
      · rintro ⟨it, hit, hid⟩
        have hmk := Option.some.inj hit
        exact absurd (by rw [← hid, ← hmk]) h1
    · rw [if_neg h2]
      exact hinv id' pp'

/-- C3: `watched_items` and `watched_item_ids` are exact inverses after
every operation: path arrival and failed opens never touch them; a
successful open inserts the matching pair (under the freshness the system
guarantees at completion time: the path was pending, hence untracked, and
the document identity the container hands back is not already tracked);
promote/forget remove the matching pair; the refresh's flag rewrites keep
every `item_id`, and its closes remove matching pairs.  Stopping removes
state wholesale. -/
theorem c3_inverse_maps_preserved (env : Env) (op : WatchOp) (st : GroupState)
    (hfresh : OpFresh st op) (hinv : InvPair st) :
    InvPair (applyOp env op st).1 := by
  cases op with
  | handleFs paths =>
    show InvPair (handle_watch_fs_paths env st paths).1
    unfold handle_watch_fs_paths
    by_cases hp : st.paused = true
    · rw [if_pos hp]
      exact hinv
    · rw [if_neg hp]
      exact fun id' pp' => hinv id' pp'
  | refreshGit gs => exact invpair_refresh env gs st hinv
  | openOk pp cwc fromFs id =>
    exact invpair_openOk env pp cwc fromFs id st hfresh.1 hfresh.2 hinv
  | openErr pp chain => exact fun id' pp' => hinv id' pp'
  | promote id => exact invpair_forget id st hinv
  | forget id => exact invpair_forget id st hinv
  | setPaused gs b =>
    cases b
    · exact invpair_refresh env gs { st with paused := false } (fun id' pp' => hinv id' pp')
    · exact fun id' pp' => hinv id' pp'

/-- C3 witness: the inverse invariant holds after a fresh successful open
completion on an empty group. -/
theorem c3_inverse_maps_preserved_witness :
    InvPair (applyOp envA (WatchOp.openOk ["a.txt"] true false 9) stEmpty).1 :=
  c3_inverse_maps_preserved envA (WatchOp.openOk ["a.txt"] true false 9) stEmpty
    ⟨rfl, rfl⟩
    (by intro id pp; simp [stEmpty, lookupA])

/-! ### Debounce-timer lemmas (claim C8) -/

theorem countNat_eraseOne_self (g : Nat) (l : List Nat) :
    countNat g (eraseOne g l) = countNat g l - 1 := by
  induction l with
  | nil => rfl
  | cons x xs ih =>
    by_cases hx : x = g
    · rw [show eraseOne g (x :: xs) = xs from by simp [eraseOne, hx]]
      simp [countNat, hx]
    · rw [show eraseOne g (x :: xs) = x :: eraseOne g xs from by simp [eraseOne, hx]]
      simp [countNat, hx, ih]

theorem countNat_eraseOne_ne (g g' : Nat) (h : g ≠ g') (l : List Nat) :
    countNat g (eraseOne g' l) = countNat g l := by
  induction l with
  | nil => rfl
  | cons x xs ih =>
    by_cases hx : x = g'
    · have hgg : ¬ g' = g := fun e => h e.symm
      rw [show eraseOne g' (x :: xs) = xs from by simp [eraseOne, hx]]
      simp [countNat, hx, hgg]
    · rw [show eraseOne g' (x :: xs) = x :: eraseOne g' xs from by simp [eraseOne, hx]]
      simp [countNat, ih]

/-- C8 (counterexample): the trace install, schedule, stop, start
(install again), schedule — all legal operations of the subsystem — ends
with TWO sleeping 250ms timers for group 0.  The timer task of
`schedule_watch_refresh_for_group` is spawned detached
(`detach_and_log_err`), so `stop_watching_group` does not cancel it; the
restarted group's fresh state has `refresh_pending = false`, so the next
request spawns a second timer while the first one still sleeps —
refuting "at most one refresh timer is pending at any time". -/
theorem c8_counterexample :
    countNat 0 (runTimerTrace (TimerSys.mk [] [])
      [TimerEv.install 0, TimerEv.schedule 0, TimerEv.stop 0,
       TimerEv.install 0, TimerEv.schedule 0]).timers = 2 := by
  decide

/-- C8 (amended): as long as a group is not stopped and reinstalled, the
`refresh_pending` guard keeps at most one timer sleeping: if the count of
sleeping timers matches the guard, it still does after any schedule or
fire event (for any group) and after stops/installs of other groups, and
it is then at most 1; requesting a refresh while the guard is set is a
complete no-op; a firing timer runs exactly one dirty-path refresh. -/
theorem c8_refresh_guard (s : TimerSys) (g : Nat) (ev : TimerEv)
    (hinv : TimerInv g s) (h1 : ev ≠ TimerEv.stop g) (h2 : ev ≠ TimerEv.install g) :
    TimerInv g (timerStepE s ev).1 ∧
    countNat g (timerStepE s ev).1.timers ≤ 1 ∧
    (lookupA g s.groups = some true → timerStepE s (TimerEv.schedule g) = (s, [])) ∧
    (timerStepE s (TimerEv.fire g)).2 = [Effect.runRefresh g] := by
  have key : TimerInv g (timerStepE s ev).1 := by
    cases ev with
    | schedule g' =>
      by_cases hg : g' = g
      · subst hg
        cases hc : lookupA g' s.groups with
        | none => simpa [timerStepE, hc] using hinv
        | some b =>
          cases b
          · unfold TimerInv at hinv ⊢
            simp [timerStepE, hc, countNat, lookupA_insertA] at *
            omega
          · simpa [timerStepE, hc] using hinv
      · have hg' : ¬ g = g' := fun e => hg e.symm
        cases hc : lookupA g' s.groups with
        | none => simpa [timerStepE, hc] using hinv
        | some b =>
          cases b
          · unfold TimerInv at hinv ⊢
            simp [timerStepE, hc, countNat, lookupA_insertA, hg, hg']
            exact hinv
          · simpa [timerStepE, hc] using hinv
    | fire g' =>
      by_cases hg : g' = g
      · subst hg
        unfold TimerInv at hinv ⊢
        cases hc : lookupA g' s.groups with
        | none =>
          simp [timerStepE, hc, countNat_eraseOne_self]
          simp [hc] at hinv
          omega
        | some b =>
          simp [timerStepE, hc, countNat_eraseOne_self, lookupA_insertA]
          simp [hc] at hinv
          cases b <;> simp at hinv <;> omega
      · have hg' : ¬ g = g' := fun e => hg e.symm
        unfold TimerInv at hinv ⊢
        cases hc : lookupA g' s.groups with
        | none => simpa [timerStepE, hc, countNat_eraseOne_ne g g' hg'] using hinv
        | some b =>
          simpa [timerStepE, hc, countNat_eraseOne_ne g g' hg', lookupA_insertA, hg']
            using hinv
    | stop g' =>
      have hgg : ¬ g' = g := fun e => h1 (by rw [e])
      have hgg' : ¬ g = g' := fun e => hgg e.symm
      unfold TimerInv at hinv ⊢
      simpa [timerStepE, lookupA_eraseA, hgg'] using hinv
    | install g' =>
      have hgg : ¬ g' = g := fun e => h2 (by rw [e])
      have hgg' : ¬ g = g' := fun e => hgg e.symm
      unfold TimerInv at hinv ⊢
      simpa [timerStepE, lookupA_insertA, hgg'] using hinv
  refine ⟨key, ?_, ?_, rfl⟩
  · rw [key]
    split <;> simp
  · intro hl
    simp [timerStepE, hl]

/-- C8 witness: the guard theorem applied at a concrete state (one
installed, unflagged group receiving a schedule request). -/
theorem c8_refresh_guard_witness :
    TimerInv 0 (timerStepE (TimerSys.mk [(0, false)] []) (TimerEv.schedule 0)).1 :=
  (c8_refresh_guard (TimerSys.mk [(0, false)] []) 0 (TimerEv.schedule 0)
    (by unfold TimerInv; decide) (by decide) (by decide)).1
